import Mathlib

/-
Verification of the SteamSelfGifter frontend automation client against its
specification.  Each model below is a shallow embedding of a function of the
repository: pure TypeScript functions become Lean functions, stateful modules
become explicit state passing, fallible calls return Except, and the external
network is an input oracle.  The backend engine (Entry Pipeline, Cycle
Orchestrator, settings-write endpoint) is not part of the source tree; models
of those parts are marked as modelled from the specification text.
-/

/- ===================== Definitions ===================== -/

/- ---- uiStore (stores module): notifications and sidebar state ---- -/

/-- One toast notification of the UI store.  Field `id` is the random UUID
assigned by addNotification; `ntype` is the success/error/info/warning tag. -/
structure Notification where
  id : String
  ntype : String
  message : String
  duration : Option Nat
deriving Repr, DecidableEq

/-- The UI store state: sidebar collapsed flag plus the notification list. -/
structure UIState where
  sidebarCollapsed : Bool
  notifications : List Notification
deriving Repr, DecidableEq

/-- Embedding of removeNotification of the UI store: keeps exactly the
notifications whose id differs from the given one (source:
`state.notifications.filter((n) => n.id !== id)`). -/
def removeNotification (i : String) (s : UIState) : UIState :=
  { s with notifications := s.notifications.filter (fun n => n.id != i) }

/- ---- Dashboard page: EnteredGiveawayRow ended classification ---- -/

/-- Embedding of the isExpired computation of EnteredGiveawayRow.  Source:
`giveaway.end_time ? new Date(giveaway.end_time) < new Date() : giveaway.is_won`.
Times are modelled as Nat milliseconds; a null end_time is `none`. -/
def isExpired (end_time : Option Nat) (is_won : Bool) (now : Nat) : Bool :=
  match end_time with
  | some t => decide (t < now)
  | none => is_won

/- ---- ApiClient (services/api.ts) ---- -/

/-- The ApiResponse wrapper every backend response carries.  `data = none`
models the JSON null produced by the catch branch. -/
structure ApiResponse (α : Type) where
  success : Bool
  data : Option α
  error : Option String
deriving Repr, DecidableEq

/-- Oracle for one network interaction of ApiClient.request: either fetch
rejects (network failure), or response.json() rejects (non-JSON body), or a
parsed body is returned.  The message is the message of the thrown Error. -/
inductive FetchOutcome (α : Type) where
  | netError (msg : String)
  | badJson (msg : String)
  | ok (body : ApiResponse α)
deriving Repr, DecidableEq

/-- HTTP method selected by the convenience wrappers of ApiClient. -/
inductive HttpMethod where
  | get
  | post
  | put
  | delete
deriving Repr, DecidableEq

/-- The RequestInit options ApiClient.request receives from its wrappers. -/
structure RequestOptions where
  method : HttpMethod
  body : Option String
deriving Repr, DecidableEq

/-- The try-block body of ApiClient.request: awaiting fetch and then
response.json() may throw; Except.error is the thrown exception. -/
def requestTry {α : Type} : FetchOutcome α → Except String (ApiResponse α)
  | FetchOutcome.netError m => Except.error m
  | FetchOutcome.badJson m => Except.error m
  | FetchOutcome.ok body => Except.ok body

/-- Embedding of ApiClient.request: the try body wrapped in the catch branch
that converts any thrown error into `{success: false, data: null, error}`.
The endpoint and options do not alter the outcome of the given oracle. -/
def request {α : Type} (endpoint : String) (options : RequestOptions)
    (outcome : FetchOutcome α) : ApiResponse α :=
  let _ := endpoint
  let _ := options
  match requestTry outcome with
  | Except.ok r => r
  | Except.error m => ⟨false, none, some m⟩

/-- Embedding of ApiClient.get. -/
def getReq {α : Type} (endpoint : String) (outcome : FetchOutcome α) : ApiResponse α :=
  request endpoint ⟨HttpMethod.get, none⟩ outcome

/-- Embedding of ApiClient.post. -/
def postReq {α : Type} (endpoint : String) (body : Option String)
    (outcome : FetchOutcome α) : ApiResponse α :=
  request endpoint ⟨HttpMethod.post, body⟩ outcome

/-- Embedding of ApiClient.put. -/
def putReq {α : Type} (endpoint : String) (body : String)
    (outcome : FetchOutcome α) : ApiResponse α :=
  request endpoint ⟨HttpMethod.put, some body⟩ outcome

/-- Embedding of ApiClient.delete. -/
def deleteReq {α : Type} (endpoint : String) (outcome : FetchOutcome α) : ApiResponse α :=
  request endpoint ⟨HttpMethod.delete, none⟩ outcome

/- ---- WebSocket hooks module: scan_progress consumption ---- -/

/-- The ScanProgressData interface of the WebSocket hooks module: the fields
the scan_progress payload carries, as the consumer declares them. -/
structure ScanProgressData where
  current_page : Nat
  total_pages : Nat
  new_giveaways : Nat
deriving Repr, DecidableEq

/-- The scan_progress wire payload as a field-name/value record, with exactly
the field names of the ScanProgressData interface. -/
def scanProgressPayload (d : ScanProgressData) : List (String × Nat) :=
  [("current_page", d.current_page),
   ("total_pages", d.total_pages),
   ("new_giveaways", d.new_giveaways)]

/-- State of the useScanProgress hook. -/
structure ScanProgressState where
  progress : Option ScanProgressData
  isScanning : Bool
deriving Repr, DecidableEq

/-- Events the useScanProgress hook subscribes to. -/
inductive ScanEvent where
  | scanProgress (d : ScanProgressData)
  | scanComplete
  | scanError
  | other (etype : String)
deriving Repr, DecidableEq

/-- Embedding of the useScanProgress hook: scan_progress stores the delivered
payload and turns scanning on; scan_complete and scan_error clear both. -/
def scanProgressStep (e : ScanEvent) (s : ScanProgressState) : ScanProgressState :=
  match e with
  | ScanEvent.scanProgress d => ⟨some d, true⟩
  | ScanEvent.scanComplete => ⟨none, false⟩
  | ScanEvent.scanError => ⟨none, false⟩
  | ScanEvent.other _ => s

/- ---- WebSocketService (services/websocket.ts): reconnect machinery ---- -/

/-- JS default via the or operator: `options.x || d` falls back to `d` when
the option is absent or zero (zero is falsy in JavaScript). -/
def orDefault (o : Option Nat) (d : Nat) : Nat :=
  match o with
  | some v => if v = 0 then d else v
  | none => d

/-- Constructor default for reconnectInterval (3000 ms). -/
def defaultReconnectInterval (o : Option Nat) : Nat :=
  orDefault o 3000

/-- Constructor default for maxReconnectAttempts (10). -/
def defaultMaxReconnectAttempts (o : Option Nat) : Nat :=
  orDefault o 10

/-- The delay scheduleReconnect computes before reconnect attempt `n`
(`n = this.reconnectAttempts` after the increment).  Source:
`this.reconnectInterval * Math.min(this.reconnectAttempts, 5)`. -/
def reconnectDelay (interval n : Nat) : Nat :=
  interval * min n 5

/-- Mutable fields of WebSocketService relevant to the reconnect loop. -/
structure WSState where
  reconnectAttempts : Nat
  timerScheduled : Bool
  timerDelay : Nat
  connected : Bool
  isIntentionallyClosed : Bool
deriving Repr, DecidableEq

/-- Embedding of WebSocketService.scheduleReconnect: once the attempt counter
has reached the maximum, return without scheduling; otherwise increment the
counter and arm the timer with the capped linear delay. -/
def scheduleReconnect (maxAttempts interval : Nat) (s : WSState) : WSState :=
  if maxAttempts ≤ s.reconnectAttempts then s
  else
    { s with
      reconnectAttempts := s.reconnectAttempts + 1
      timerScheduled := true
      timerDelay := reconnectDelay interval (s.reconnectAttempts + 1) }

/-- External events driving the reconnect state of WebSocketService. -/
inductive WSEvent where
  | onOpen
  | onClose
  | connectFailure
  | disconnect
  | connectCall
deriving Repr, DecidableEq

/-- One step of the WebSocketService reconnect machine.  onOpen resets the
attempt counter to zero; onClose schedules a reconnect unless the close was
intentional; a connect failure schedules a reconnect; disconnect marks the
close intentional and clears the timer; connect clears the intentional flag. -/
def wsStep (maxAttempts interval : Nat) (e : WSEvent) (s : WSState) : WSState :=
  match e with
  | WSEvent.onOpen => { s with reconnectAttempts := 0, connected := true }
  | WSEvent.onClose =>
    let s1 := { s with connected := false }
    if s.isIntentionallyClosed then s1 else scheduleReconnect maxAttempts interval s1
  | WSEvent.connectFailure => scheduleReconnect maxAttempts interval s
  | WSEvent.disconnect =>
    { s with isIntentionallyClosed := true, timerScheduled := false, connected := false }
  | WSEvent.connectCall => { s with isIntentionallyClosed := false }

/- ---- WebSocketService.handleEvent: handler dispatch ---- -/

/-- What one registered handler does when invoked on the current event. -/
inductive HResult where
  | ok
  | thrown (msg : String)
deriving Repr, DecidableEq

/-- A registered handler: an identifier plus its behaviour on this event. -/
structure Handler where
  hid : Nat
  result : HResult
deriving Repr, DecidableEq

/-- Semantics of `handlers.forEach(h => ...h(event)...)` over fallible
handlers: the returned list records each invocation in order, the option a
propagated exception.  With catching on (the try/catch of handleEvent) an
exception is swallowed and iteration continues; with catching off the first
exception propagates and the remaining handlers are never invoked. -/
def runHandlerList (catchErrors : Bool) : List Handler → List Nat × Option String
  | [] => ([], none)
  | h :: t =>
    match h.result with
    | HResult.ok =>
      let r := runHandlerList catchErrors t
      (h.hid :: r.1, r.2)
    | HResult.thrown m =>
      if catchErrors then
        let r := runHandlerList catchErrors t
        (h.hid :: r.1, r.2)
      else ([h.hid], some m)

/-- Embedding of WebSocketService.handleEvent: run every global handler, then
every handler subscribed to the exact event type (looked up in the handler
map), each call wrapped in try/catch.  Returns the invocation order and any
propagated exception. -/
def handleEvent (globals : List Handler) (eventHandlers : List (String × List Handler))
    (etype : String) : List Nat × Option String :=
  let g := runHandlerList true globals
  let typed :=
    match eventHandlers.lookup etype with
    | some hs => runHandlerList true hs
    | none => ([], none)
  (g.1 ++ typed.1, g.2 <|> typed.2)

/- ---- Entry Pipeline (backend, modelled from the spec) ---- -/

/-- Modelled from the spec: the backend Entry Pipeline is not under src/; only
its result type ProcessResult appears in the frontend type declarations.  A
candidate is an eligibility-filtered listing with its point cost together
with the outcome the external submitEntry capability will report. -/
structure Candidate where
  pointCost : Nat
  submitSucceeds : Bool
deriving Repr, DecidableEq

/-- Modelled from the spec: one recorded Entry of a pipeline run, reduced to
the fields the point-floor accounting needs. -/
structure EntryRec where
  pointsSpent : Nat
  success : Bool
deriving Repr, DecidableEq

/-- Modelled from the spec: the in-memory account and entry log the Entry
Pipeline threads through its strictly sequential iterations. -/
structure PipelineState where
  currentPoints : Nat
  entries : List EntryRec
deriving Repr, DecidableEq

/-- Sum of pointsSpent over the successful entries of a run. -/
def spentSum : List EntryRec → Nat
  | [] => 0
  | e :: t => (if e.success then e.pointsSpent else 0) + spentSum t

/-- Modelled from the spec (Entry Pipeline): before each submission the
account points are re-checked against the stopAt floor (entry must leave at
least stopAt points); on success an Entry is recorded and the points are
decremented synchronously; on failure a failed Entry is recorded and the
points are untouched; an ineligible candidate is skipped. -/
def entryStep (stopAt : Nat) (s : PipelineState) (c : Candidate) : PipelineState :=
  if stopAt + c.pointCost ≤ s.currentPoints then
    if c.submitSucceeds then
      ⟨s.currentPoints - c.pointCost, s.entries ++ [⟨c.pointCost, true⟩]⟩
    else
      ⟨s.currentPoints, s.entries ++ [⟨c.pointCost, false⟩]⟩
  else s

/-- Modelled from the spec: the Entry Pipeline over a candidate batch, with
submissions strictly one at a time, each decrement applied before the next
eligibility re-check. -/
def runEntryPipeline (stopAt : Nat) (s : PipelineState) : List Candidate → PipelineState
  | [] => s
  | c :: cs => runEntryPipeline stopAt (entryStep stopAt s c) cs

/-- The trace of pipeline states: the state before the batch and the state
after every iteration. -/
def pipelineStates (stopAt : Nat) (s : PipelineState) : List Candidate → List PipelineState
  | [] => [s]
  | c :: cs => s :: pipelineStates stopAt (entryStep stopAt s c) cs

/- ---- Cycle Orchestrator lock (backend, modelled from the spec) ---- -/

/-- Modelled from the spec: the shape of the result a cycle trigger returns
when it is skipped, matching the skipped/reason fields of the frontend type
AutomationCycleResult.  pacerActions counts Pacer-mediated submissions the
trigger itself caused. -/
structure CycleTriggerResult where
  skipped : Bool
  reason : Option String
  pacerActions : Nat
deriving Repr, DecidableEq

/-- Modelled from the spec: the scheduler-owned exclusion state.  inFlight is
the number of Cycle Orchestrator executions currently running; pacerStarted
counts cycle bodies that have begun Pacer/submission activity. -/
structure OrchState where
  inFlight : Nat
  pacerStarted : Nat
deriving Repr, DecidableEq

/-- Events of the exclusion machine: a trigger (timer-driven or manual)
arrives, or the in-flight cycle completes. -/
inductive CycleEvent where
  | trigger
  | complete
deriving Repr, DecidableEq

/-- Modelled from the spec: the non-reentrant lock of the Job Scheduler.  A
trigger while a cycle is in flight returns immediately with a skipped result
whose reason is "cycle already running" and starts no Pacer activity; a
trigger while idle starts the one cycle body (its result is delivered on
completion); complete releases the lock. -/
def cycleStep (e : CycleEvent) (s : OrchState) : OrchState × Option CycleTriggerResult :=
  match e with
  | CycleEvent.trigger =>
    if s.inFlight ≠ 0 then
      (s, some ⟨true, some "cycle already running", 0⟩)
    else
      (⟨s.inFlight + 1, s.pacerStarted + 1⟩, none)
  | CycleEvent.complete => (⟨s.inFlight - 1, s.pacerStarted⟩, none)

/-- Runs the exclusion machine over a sequence of events. -/
def cycleRun (es : List CycleEvent) (s : OrchState) : OrchState :=
  match es with
  | [] => s
  | e :: rest => cycleRun rest (cycleStep e s).1

/- ---- Settings write (backend endpoint, modelled from the spec) ---- -/

/-- The pacing bounds of a settings payload, with the field names of the
frontend Settings type. -/
structure SettingsPayload where
  entry_delay_min : Nat
  entry_delay_max : Nat
deriving Repr, DecidableEq

/-- Modelled from the spec: the settings-write operation of the backend is
not under src/ (the frontend only issues the PUT through useUpdateSettings).
Per the specification, a payload whose minimum entry delay exceeds its
maximum is rejected at write time with a ConfigurationError and never
reaches the engine. -/
def writeSettings (p : SettingsPayload) : Except String SettingsPayload :=
  if p.entry_delay_max < p.entry_delay_min then
    Except.error "ConfigurationError: entry_delay_min exceeds entry_delay_max"
  else
    Except.ok p

/-- The settings the engine observes after a write request: a rejected write
leaves the stored settings untouched. -/
def settingsAfterWrite (stored p : SettingsPayload) : SettingsPayload :=
  match writeSettings p with
  | Except.ok accepted => accepted
  | Except.error _ => stored

/-- A concrete WebSocketService state whose attempt counter sits at the
default maximum of ten failed attempts. -/
def wsMaxedState : WSState :=
  ⟨10, false, 0, false, false⟩

/- ===================== Theorems ===================== -/

/-- C10: removeNotification removes exactly the notifications whose id equals
the given id, keeps every other notification (in its original relative
order, being a sublist of the original list), and leaves the sidebar
state unchanged. -/
theorem removeNotification_spec (s : UIState) (i : String) :
    (removeNotification i s).sidebarCollapsed = s.sidebarCollapsed ∧
    (∀ n : Notification,
      n ∈ (removeNotification i s).notifications ↔ n ∈ s.notifications ∧ n.id ≠ i) ∧
    (removeNotification i s).notifications.Sublist s.notifications := by
  refine ⟨rfl, ?_, ?_⟩
  · intro n
    simp [removeNotification, List.mem_filter]
  · exact List.filter_sublist _

/-- C6: a displayed entered giveaway is classified as ended exactly when its
end_time is set and lies strictly in the past, and, when end_time is null,
exactly when the giveaway is won. -/
theorem isExpired_spec (t now : Nat) (w : Bool) :
    (isExpired (some t) w now = true ↔ t < now) ∧ isExpired none w now = w := by
  constructor
  · simp [isExpired]
  · rfl

/-- C8: ApiClient.request never throws or rejects: for every endpoint,
options and network outcome it returns a plain ApiResponse, equal to the
fallback `{success: false, data: null, error: message}` on a network failure
or a non-JSON body and to the parsed body otherwise; get, post, put and
delete are request at their respective method options. -/
theorem request_never_rejects {α : Type} (endpoint : String) (options : RequestOptions)
    (body : Option String) (b : String) (o : FetchOutcome α) :
    request endpoint options o =
      (match o with
       | FetchOutcome.netError m => ⟨false, none, some m⟩
       | FetchOutcome.badJson m => ⟨false, none, some m⟩
       | FetchOutcome.ok r => r) ∧
    getReq endpoint o = request endpoint ⟨HttpMethod.get, none⟩ o ∧
    postReq endpoint body o = request endpoint ⟨HttpMethod.post, body⟩ o ∧
    putReq endpoint b o = request endpoint ⟨HttpMethod.put, some b⟩ o ∧
    deleteReq endpoint o = request endpoint ⟨HttpMethod.delete, none⟩ o := by
  refine ⟨?_, rfl, rfl, rfl, rfl⟩
  cases o <;> rfl

/-- C7 counterexample: on the concrete payload (page 1 of 5, 3 new
giveaways) none of the field names currentPage, totalPages, newCount that the
claim takes from the interface contract occurs in the scan_progress payload;
the interface the observers actually declare names the fields current_page,
total_pages and new_giveaways. -/
theorem scanProgress_named_fields_counterexample :
    List.lookup "currentPage" (scanProgressPayload ⟨1, 5, 3⟩) = none ∧
    List.lookup "totalPages" (scanProgressPayload ⟨1, 5, 3⟩) = none ∧
    List.lookup "newCount" (scanProgressPayload ⟨1, 5, 3⟩) = none := by
  refine ⟨?_, ?_, ?_⟩ <;> rfl

/-- C7 amended: every scan_progress payload carries exactly the fields
current_page, total_pages and new_giveaways, the names declared by the
ScanProgressData interface of the consumer, and the useScanProgress observer
stores exactly that payload and turns scanning on. -/
theorem scanProgress_fields_amended (d : ScanProgressData) (s : ScanProgressState) :
    List.lookup "current_page" (scanProgressPayload d) = some d.current_page ∧
    List.lookup "total_pages" (scanProgressPayload d) = some d.total_pages ∧
    List.lookup "new_giveaways" (scanProgressPayload d) = some d.new_giveaways ∧
    (scanProgressPayload d).map Prod.fst
      = ["current_page", "total_pages", "new_giveaways"] ∧
    scanProgressStep (ScanEvent.scanProgress d) s = ⟨some d, true⟩ := by
  exact ⟨rfl, rfl, rfl, rfl, rfl⟩

/-- C3 counterexample: with the default 3000 ms interval the first three
delays computed by scheduleReconnect are 3000, 6000 and 9000 ms; they violate
the identity d2 * d2 = d1 * d3 that every exponential progression satisfies,
so the backoff delay does not grow exponentially in the attempt number. -/
theorem scheduleReconnect_not_exponential :
    reconnectDelay 3000 1 = 3000 ∧
    reconnectDelay 3000 2 = 6000 ∧
    reconnectDelay 3000 3 = 9000 ∧
    reconnectDelay 3000 2 * reconnectDelay 3000 2 ≠
      reconnectDelay 3000 1 * reconnectDelay 3000 3 ∧
    (scheduleReconnect 10 3000 ⟨1, false, 0, false, false⟩).timerDelay = 6000 := by
  refine ⟨rfl, rfl, rfl, by decide, rfl⟩

/-- C3 amended: the reconnect delay grows linearly with the attempt number
and is capped: delay = reconnectInterval * min(n, 5), so it is nondecreasing,
equals interval * n for the first five attempts (n + 5 is always past the
cap), and scheduleReconnect arms the timer with exactly this delay. -/
theorem reconnectDelay_linear_capped (interval n d0 : Nat) (b c ic : Bool) :
    reconnectDelay interval n = interval * min n 5 ∧
    reconnectDelay interval (n + 5) = interval * 5 ∧
    reconnectDelay interval n ≤ reconnectDelay interval (n + 1) ∧
    (scheduleReconnect (n + 1) interval ⟨n, b, d0, c, ic⟩).timerDelay
      = reconnectDelay interval (n + 1) := by
  refine ⟨rfl, ?_, ?_, ?_⟩
  · have h5 : min (n + 5) 5 = 5 := Nat.min_eq_right (by omega)
    simp [reconnectDelay, h5]
  · exact Nat.mul_le_mul_left interval (min_le_min (Nat.le_succ n) (le_refl 5))
  · have hlt : ¬ (n + 1 ≤ n) := Nat.not_succ_le_self n
    simp [scheduleReconnect, hlt]

/-- Helper: scheduleReconnect never decreases the attempt counter. -/
theorem scheduleReconnect_attempts_mono (m i : Nat) (s : WSState) :
    s.reconnectAttempts ≤ (scheduleReconnect m i s).reconnectAttempts := by
  unfold scheduleReconnect
  split
  · exact le_refl _
  · exact Nat.le_succ _

/-- C4: once the attempt counter has reached the configured maximum (10 by
default), scheduleReconnect returns without scheduling any further attempt
(the whole state, timer included, is unchanged); the counter is reset to
zero only by a successful open, onOpen being the only event that ever
decreases it, and it then becomes exactly zero. -/
theorem wsReconnect_stops_and_resets (m i : Nat) (e : WSEvent) (s : WSState) :
    (m ≤ s.reconnectAttempts → scheduleReconnect m i s = s) ∧
    ((wsStep m i e s).reconnectAttempts < s.reconnectAttempts → e = WSEvent.onOpen) ∧
    (wsStep m i WSEvent.onOpen s).reconnectAttempts = 0 ∧
    defaultMaxReconnectAttempts none = 10 := by
  refine ⟨?_, ?_, rfl, rfl⟩
  · intro h
    simp [scheduleReconnect, h]
  · intro h
    cases e with
    | onOpen => rfl
    | onClose =>
      exfalso
      have hle : s.reconnectAttempts ≤ (wsStep m i WSEvent.onClose s).reconnectAttempts := by
        simp only [wsStep]
        split
        · exact le_refl _
        · exact scheduleReconnect_attempts_mono m i { s with connected := false }
      omega
    | connectFailure =>
      exact absurd h (Nat.not_lt.mpr (scheduleReconnect_attempts_mono m i s))
    | disconnect => exact absurd h (by simp [wsStep])
    | connectCall => exact absurd h (by simp [wsStep])

/-- C4 witness: at the maxed-out state (ten failed attempts, default limit
ten) scheduleReconnect changes nothing, and an open resets the counter to
zero. -/
theorem wsReconnect_stops_and_resets_witness :
    scheduleReconnect 10 3000 wsMaxedState = wsMaxedState ∧
    WSEvent.onOpen = WSEvent.onOpen ∧
    (wsStep 10 3000 WSEvent.onOpen wsMaxedState).reconnectAttempts = 0 ∧
    defaultMaxReconnectAttempts none = 10 := by
  have t := wsReconnect_stops_and_resets 10 3000 WSEvent.onOpen wsMaxedState
  exact ⟨t.1 (by decide), t.2.1 (by decide), t.2.2.1, t.2.2.2⟩

/-- Helper: with the try/catch of handleEvent in place, a handler list is
traversed in full, every handler is invoked exactly once in order, and no
exception propagates. -/
theorem runHandlerList_catch (hs : List Handler) :
    runHandlerList true hs = (hs.map Handler.hid, none) := by
  induction hs with
  | nil => rfl
  | cons h t ih =>
    cases hr : h.result <;> simp [runHandlerList, hr, ih]

/-- C9: handleEvent invokes every registered global handler and then every
handler subscribed to the exact event type, each exactly once and in
registration order, whatever each handler does; an exception thrown by a
handler is caught (none is ever propagated) and does not prevent the
remaining handlers from being invoked. -/
theorem handleEvent_invokes_all_once (globals : List Handler)
    (eventHandlers : List (String × List Handler)) (etype : String) :
    handleEvent globals eventHandlers etype =
      (globals.map Handler.hid ++
        ((eventHandlers.lookup etype).getD []).map Handler.hid, none) := by
  unfold handleEvent
  cases hl : eventHandlers.lookup etype <;>
    simp [runHandlerList_catch, hl]

/-- Helper: one Entry Pipeline iteration preserves the point floor and the
accounting identity points + spent = const. -/
theorem entryStep_accounting (stopAt : Nat) (s : PipelineState) (c : Candidate) :
    (stopAt ≤ s.currentPoints → stopAt ≤ (entryStep stopAt s c).currentPoints) ∧
    (entryStep stopAt s c).currentPoints + spentSum (entryStep stopAt s c).entries
      = s.currentPoints + spentSum s.entries := by
  have happ : ∀ (l : List EntryRec) (e : EntryRec),
      spentSum (l ++ [e]) = spentSum l + (if e.success then e.pointsSpent else 0) := by
    intro l e
    induction l with
    | nil => simp [spentSum]
    | cons x t ih => simp [spentSum, ih]; omega
  unfold entryStep
  by_cases h1 : stopAt + c.pointCost ≤ s.currentPoints
  · cases hc : c.submitSucceeds
    · simp [h1, hc, happ]
    · simp [h1, hc, happ]
      omega
  · simp [h1]

/-- Helper: every state in the trace of an Entry Pipeline run keeps the point
floor (when the initial state satisfies it) and the accounting identity. -/
theorem pipelineStates_invariant (stopAt : Nat) :
    ∀ (cs : List Candidate) (s t : PipelineState),
      t ∈ pipelineStates stopAt s cs →
      (stopAt ≤ s.currentPoints → stopAt ≤ t.currentPoints) ∧
      t.currentPoints + spentSum t.entries = s.currentPoints + spentSum s.entries := by
  intro cs
  induction cs with
  | nil =>
    intro s t hm
    simp [pipelineStates] at hm
    subst hm
    exact ⟨fun h => h, rfl⟩
  | cons c rest ih =>
    intro s t hm
    simp only [pipelineStates, List.mem_cons] at hm
    rcases hm with rfl | hm
    · exact ⟨fun h => h, rfl⟩
    · have hstep := entryStep_accounting stopAt s c
      have hrec := ih (entryStep stopAt s c) t hm
      exact ⟨fun h => hrec.1 (hstep.1 h), by rw [hrec.2, hstep.2]⟩

/-- C1: an Entry Pipeline run over any candidate batch, started at or above
the stopAt floor with an empty entry log, satisfies after every iteration
(every state of the trace): the current points stay at or above stopAt, and
they equal the initial points minus the cumulative pointsSpent of the
successful entries recorded so far — each synchronous decrement is applied
before the next eligibility re-check by the strictly sequential fold. -/
theorem entryPipeline_floor (stopAt p0 : Nat) (cs : List Candidate)
    (t : PipelineState) (h : stopAt ≤ p0)
    (hm : t ∈ pipelineStates stopAt ⟨p0, []⟩ cs) :
    stopAt ≤ t.currentPoints ∧ t.currentPoints + spentSum t.entries = p0 := by
  have hinv := pipelineStates_invariant stopAt cs ⟨p0, []⟩ t hm
  refine ⟨hinv.1 h, ?_⟩
  have h0 : spentSum ([] : List EntryRec) = 0 := rfl
  have := hinv.2
  simp [h0] at this
  exact this

/-- C1 witness: the scenario of the specification — 200 points, floor 100,
candidates costing 60 then 50: after the first (successful) entry the state
holds 140 points with 60 spent, and the floor is kept. -/
theorem entryPipeline_floor_witness :
    100 ≤ (PipelineState.mk 140 [EntryRec.mk 60 true]).currentPoints ∧
    (PipelineState.mk 140 [EntryRec.mk 60 true]).currentPoints
      + spentSum [EntryRec.mk 60 true] = 200 :=
  entryPipeline_floor 100 200 [⟨60, true⟩, ⟨50, true⟩]
    ⟨140, [⟨60, true⟩]⟩ (by decide) (by decide)

/-- Helper: one step of the cycle exclusion machine keeps at most one cycle
in flight. -/
theorem cycleStep_inFlight_le (e : CycleEvent) (s : OrchState)
    (h : s.inFlight ≤ 1) : (cycleStep e s).1.inFlight ≤ 1 := by
  cases e with
  | trigger =>
    by_cases hz : s.inFlight ≠ 0
    · simpa [cycleStep, hz] using h
    · simp only [cycleStep, hz, if_false]
      simp only [not_not] at hz
      omega
  | complete =>
    simp only [cycleStep]
    omega

/-- Helper: the at-most-one-cycle invariant is preserved by every event
sequence. -/
theorem cycleRun_inFlight_le (es : List CycleEvent) :
    ∀ s : OrchState, s.inFlight ≤ 1 → (cycleRun es s).inFlight ≤ 1 := by
  induction es with
  | nil => intro s h; exact h
  | cons e rest ih =>
    intro s h
    exact ih _ (cycleStep_inFlight_le e s h)

/-- C2: while a cycle is in flight, a second trigger (timer-driven or manual)
returns immediately with skipped = true and reason "cycle already running",
leaving the orchestrator state — in particular the count of cycle bodies that
began Pacer/submission activity — unchanged; and from any state with at most
one cycle in flight, every event sequence keeps at most one Cycle
Orchestrator execution in flight. -/
theorem cycle_mutual_exclusion (s : OrchState) (es : List CycleEvent)
    (hbusy : s.inFlight ≠ 0) (hone : s.inFlight ≤ 1) :
    (cycleStep CycleEvent.trigger s).1 = s ∧
    (cycleStep CycleEvent.trigger s).2
      = some ⟨true, some "cycle already running", 0⟩ ∧
    (cycleRun es s).inFlight ≤ 1 := by
  refine ⟨?_, ?_, cycleRun_inFlight_le es s hone⟩
  · simp [cycleStep, hbusy]
  · simp [cycleStep, hbusy]

/-- C2 witness: with one cycle in flight, a trigger is skipped with reason
"cycle already running" and no new Pacer activity, and a later
complete/trigger/trigger sequence never exceeds one in-flight cycle. -/
theorem cycle_mutual_exclusion_witness :
    (cycleStep CycleEvent.trigger ⟨1, 4⟩).1 = (⟨1, 4⟩ : OrchState) ∧
    (cycleStep CycleEvent.trigger ⟨1, 4⟩).2
      = some ⟨true, some "cycle already running", 0⟩ ∧
    (cycleRun [CycleEvent.complete, CycleEvent.trigger, CycleEvent.trigger]
      (⟨1, 4⟩ : OrchState)).inFlight ≤ 1 :=
  cycle_mutual_exclusion ⟨1, 4⟩
    [CycleEvent.complete, CycleEvent.trigger, CycleEvent.trigger]
    (by decide) (by decide)

/-- C5: a settings payload whose minimum entry delay exceeds its maximum is
rejected by the settings-write operation with a ConfigurationError, and the
settings the engine observes afterwards are the previously stored ones — the
malformed configuration never reaches the engine. -/
theorem writeSettings_rejects_bad_delays (stored p : SettingsPayload)
    (h : p.entry_delay_max < p.entry_delay_min) :
    writeSettings p = Except.error
      "ConfigurationError: entry_delay_min exceeds entry_delay_max" ∧
    settingsAfterWrite stored p = stored := by
  constructor
  · simp [writeSettings, h]
  · simp [settingsAfterWrite, writeSettings, h]

/-- C5 witness: the payload with minimum delay 12 and maximum delay 8 is
rejected and the stored settings (5, 9) are kept. -/
theorem writeSettings_rejects_bad_delays_witness :
    writeSettings ⟨12, 8⟩ = Except.error
      "ConfigurationError: entry_delay_min exceeds entry_delay_max" ∧
    settingsAfterWrite ⟨5, 9⟩ ⟨12, 8⟩ = (⟨5, 9⟩ : SettingsPayload) :=
  writeSettings_rejects_bad_delays ⟨5, 9⟩ ⟨12, 8⟩ (by decide)
